import Mathlib

/-!
Verification of the proxy-chain core (`chain.go`) of the gost repository.

The Go code is shallowly embedded: every chain-building function returns,
besides its value-or-error result, the list of external side effects
(`Event`) it performed, in order.  Go's mutable receiver is modelled by
explicit state passing on `ProxyChain`; Go slice/index expressions keep
their run-time bounds checks (an out-of-range access is a distinguished
`Err` outcome, modelling the Go run-time panic).  The behaviour of the
network and of the external collaborators (the per-hop connection type,
the raw dialer, the HTTP/2 client's round trip) is a parameter `Oracle`.
-/

/-- Modelled from the spec: the external `ProxyNode` descriptor (its type lives
outside `chain.go`): address, transport kind, and the TLS parameters
(skip-verify flag, expected server name) read by activation. -/
structure ProxyNode where
  Addr : String
  Transport : String
  insecureSkipVerify : Bool
  serverName : String
deriving Repr, DecidableEq, Inhabited

/-- The `tls.Config` built by `TryEnableHttp2` (only the two fields the code sets). -/
structure TLSConfig where
  InsecureSkipVerify : Bool
  ServerName : String
deriving Repr, DecidableEq, Inhabited

/-- Modelled from the spec: connection values.  A layered connection is a stream
wrapped by zero or more hop handshakes; closing a layer transitively closes
everything beneath it.  `raw` is a `net.DialTimeout` result, `tunnel` the
bidirectional stream returned by the tunnel adapter (`http2Conn`), `proxy`
a `NewProxyConn` wrapper, `tlsClient` a `tls.Client` wrapper. -/
inductive Conn where
  | raw (addr : String)
  | tunnel
  | proxy (inner : Conn) (node : ProxyNode)
  | tlsClient (inner : Conn) (cfg : TLSConfig)
deriving Repr, DecidableEq, Inhabited

/-- The tunnel-switch request built by `getHttp2Conn` (the fields the code sets;
the body is the read end of a fresh in-process pipe and is not modelled). -/
structure Http2Request where
  Method : String
  URLScheme : String
  URLHost : String
  Proto : String
  ProtoMajor : Nat
  ProtoMinor : Nat
  Host : String
  ContentLength : Int
  headerProxySwitch : Option String
deriving Repr, DecidableEq, Inhabited

/-- An HTTP response as seen by `getHttp2Conn`: numeric status code and the
status line string (`resp.Status`). -/
structure Http2Response where
  StatusCode : Nat
  Status : String
deriving Repr, DecidableEq, Inhabited

/-- The observable side effects of the chain-building code, in order. -/
inductive Event where
  | dialTCP (addr : String)
  | setKeepAlive (c : Conn)
  | handshake (pc : Conn)
  | connectTo (pc : Conn) (addr : String)
  | close (c : Conn)
  | tunnelReq (req : Http2Request)
  | closeBody
deriving Repr, DecidableEq, Inhabited

/-- Errors and panics a chain-building call can end in. -/
inductive Err where
  | dialErr (addr : String)
  | handshakeErr (pc : Conn)
  | connectErr (pc : Conn) (addr : String)
  | doErr (msg : String)
  | tunnelStatusErr (status : String)
  | http2NotEnabled
  | emptyChain
  | panicSliceOutOfRange
  | panicIndexOutOfRange
deriving Repr, DecidableEq, Inhabited

/-- Modelled from the spec: the behaviour of the external collaborators — the
raw TCP dialer, the per-hop connection type's `Handshake()` and
`Connect(addr)` (which fail or succeed without closing anything themselves;
unwinding is the engine's job), and the shortcut client's request/response
round trip (`http2Client.Do`). -/
structure Oracle where
  dialOk : String → Bool
  handshakeOk : Conn → Bool
  connectOk : Conn → String → Bool
  doResult : Http2Request → Except String Http2Response

/-- The `http.Client` recorded by `initHttp2Client`: the address argument, the
TLS config, and the node list captured by the `DialTLS` closure. -/
structure Http2ClientCfg where
  addr : String
  tlsConfig : TLSConfig
  dialNodes : List ProxyNode
deriving Repr, DecidableEq, Inhabited

/-- State of a `ProxyChain` (the struct's fields). -/
structure ProxyChain where
  nodes : List ProxyNode
  lastNode : Option ProxyNode
  http2NodeIndex : Int
  http2Enabled : Bool
  http2Client : Option Http2ClientCfg
deriving Repr, DecidableEq, Inhabited

/-- `NewProxyChain`: nodes as given, `http2NodeIndex` = -1, everything else zero. -/
def NewProxyChain (nodes : List ProxyNode) : ProxyChain :=
  { nodes := nodes, lastNode := none, http2NodeIndex := -1,
    http2Enabled := false, http2Client := none }

/-- `AddProxyNode`: append the given nodes. -/
def AddProxyNode (c : ProxyChain) (node : List ProxyNode) : ProxyChain :=
  { c with nodes := c.nodes ++ node }

/-- `AddProxyNodeString`: parse each textual spec in order with the external
parser (a parameter here, since `ParseProxyNode` lives outside `chain.go`),
appending each parsed node; returns at the first parse error.  The returned
pair is (receiver state after the call, result). -/
def AddProxyNodeString (parse : String → Except String ProxyNode)
    (c : ProxyChain) : List String → ProxyChain × Except String Unit
  | [] => (c, .ok ())
  | sn :: rest =>
    match parse sn with
    | .error err => (c, .error err)
    | .ok node => AddProxyNodeString parse (AddProxyNode c [node]) rest

/-- `Nodes()`: expose the list. -/
def ProxyChain.Nodes (c : ProxyChain) : List ProxyNode := c.nodes

/-- `Http2Enabled()`. -/
def Http2Enabled (c : ProxyChain) : Bool := c.http2Enabled

/-- `initHttp2Client`: record the client (TLS config and captured dial nodes)
and set `http2Enabled`. -/
def initHttp2Client (c : ProxyChain) (addr : String) (config : TLSConfig)
    (nodes : List ProxyNode) : ProxyChain :=
  { c with http2Client := some ⟨addr, config, nodes⟩, http2Enabled := true }

/-- The `for i, node := range c.nodes` loop of `TryEnableHttp2` with its
`break`: first node whose `Transport == "http2"`, together with its index. -/
def findHttp2 : List ProxyNode → Option (Nat × ProxyNode)
  | [] => none
  | n :: rest =>
    if n.Transport == "http2" then some (0, n)
    else (findHttp2 rest).map (fun p => (p.1 + 1, p.2))

/-- `TryEnableHttp2`: if the list is empty do nothing; otherwise cache
`lastNode`, and on the first node with transport `"http2"` build the TLS
config from its fields, install the client over the nodes strictly before it
(`c.nodes[:i]`), and record the index. -/
def TryEnableHttp2 (c : ProxyChain) : ProxyChain :=
  if c.nodes.length == 0 then c
  else
    let c1 := { c with lastNode := c.nodes.getLast? }
    match findHttp2 c1.nodes with
    | none => c1
    | some (i, node) =>
      let cfg : TLSConfig := ⟨node.insecureSkipVerify, node.serverName⟩
      let c2 := initHttp2Client c1 node.Addr cfg (c1.nodes.take i)
      { c2 with http2NodeIndex := (i : Int) }

/-- Go slice expression `s[low:]` on a slice of length `len s`: in range iff
`0 ≤ low ≤ len s`, otherwise a run-time panic. -/
def goSliceFrom (s : List α) (low : Int) : Except Err (List α) :=
  if 0 ≤ low ∧ low ≤ (s.length : Int) then .ok (s.drop low.toNat)
  else .error .panicSliceOutOfRange

/-- Go index expression `s[i]`: in range iff `0 ≤ i < len s`. -/
def goIndex (s : List α) (i : Int) : Except Err α :=
  if h : 0 ≤ i ∧ i.toNat < s.length then .ok (s.get ⟨i.toNat, h.2⟩)
  else .error .panicIndexOutOfRange

/-- `net.DialTimeout("tcp", addr, DialTimeout)` — outcome decided by the oracle. -/
def dialTimeout (ω : Oracle) (addr : String) : List Event × Except Err Conn :=
  ([.dialTCP addr], if ω.dialOk addr then .ok (.raw addr) else .error (.dialErr addr))

/-- Modelled from the spec: `pc.Handshake()` on the external per-hop connection
type — performs the hop's negotiation, succeeding or failing per the oracle. -/
def handshakeStep (ω : Oracle) (pc : Conn) : List Event × Except Err Unit :=
  ([.handshake pc], if ω.handshakeOk pc then .ok () else .error (.handshakeErr pc))

/-- Modelled from the spec: `pc.Connect(addr)` on the external per-hop
connection type — asks the hop to open a tunnel to `addr`. -/
def connectStep (ω : Oracle) (pc : Conn) (addr : String) : List Event × Except Err Unit :=
  ([.connectTo pc addr], if ω.connectOk pc addr then .ok () else .error (.connectErr pc addr))

/-- The request literal built by `getHttp2Conn` for shortcut-node address `addr`. -/
def mkTunnelRequest (addr : String) : Http2Request :=
  { Method := "CONNECT", URLScheme := "https", URLHost := addr,
    Proto := "HTTP/2.0", ProtoMajor := 2, ProtoMinor := 0,
    Host := addr, ContentLength := -1, headerProxySwitch := some "gost" }

/-- `getHttp2Conn`: fail if HTTP2 is not enabled; build the tunnel-switch
request for `c.nodes[c.http2NodeIndex]`; send it via the client; a non-200
status closes the body and fails with `errors.New(resp.Status)`; otherwise the
result is the `http2Conn` stream (read side = response body, write side =
pipe). -/
def getHttp2Conn (ω : Oracle) (c : ProxyChain) : List Event × Except Err Conn :=
  if !(Http2Enabled c) then ([], .error .http2NotEnabled)
  else
    match goIndex c.nodes c.http2NodeIndex with
    | .error e => ([], .error e)
    | .ok http2Node =>
      let req := mkTunnelRequest http2Node.Addr
      match ω.doResult req with
      | .error msg => ([.tunnelReq req], .error (.doErr msg))
      | .ok resp =>
        if resp.StatusCode != 200 then
          ([.tunnelReq req, .closeBody], .error (.tunnelStatusErr resp.Status))
        else
          ([.tunnelReq req], .ok .tunnel)

/-- `http2Connect(addr)`: get the tunnel stream, wrap it in a `ProxyConn` for
the shortcut node, issue `Connect(addr)` on it (closing the wrapper — hence the
stream — on failure), and on success return the bare tunnel stream. -/
def http2Connect (ω : Oracle) (c : ProxyChain) (addr : String) :
    List Event × Except Err Conn :=
  match getHttp2Conn ω c with
  | (t, .error e) => (t, .error e)
  | (t, .ok conn) =>
    match goIndex c.nodes c.http2NodeIndex with
    | .error e => (t, .error e)
    | .ok node =>
      match connectStep ω (.proxy conn node) addr with
      | (t2, .error e) => (t ++ t2 ++ [.close (.proxy conn node)], .error e)
      | (t2, .ok _) => (t ++ t2, .ok conn)

/-- The `for _, node := range nodes[1:]` loop of `travelNodes`, carrying the
current layered connection `conn`.  The surrounding `defer` closes `conn`
(and sets it to nil) when the iteration fails, so each failing step emits a
`close` on the layered connection built so far. -/
def travelLoop (ω : Oracle) (conn : Conn) : List ProxyNode → List Event × Except Err Conn
  | [] => ([], .ok conn)
  | node :: rest =>
    match connectStep ω conn node.Addr with
    | (t1, .error e) => (t1 ++ [.close conn], .error e)
    | (t1, .ok _) =>
      match handshakeStep ω (.proxy conn node) with
      | (t2, .error e) => (t1 ++ t2 ++ [.close conn], .error e)
      | (t2, .ok _) =>
        match travelLoop ω (.proxy conn node) rest with
        | (t3, r3) => (t1 ++ t2 ++ t3, r3)

/-- `travelNodes`: open the underlying stream to `nodes[0]` (panicking, as the
Go indexing would, on an empty list) via `http2Connect` when HTTP2 is enabled
and via a raw dial otherwise, apply keepalive, handshake `nodes[0]`, then run
the connect-then-handshake loop over the remaining nodes.  The `defer` closes
the `conn` variable on error — `conn` is nil until the first handshake
succeeds, so a failure of that first handshake closes nothing. -/
def travelNodes (ω : Oracle) (c : ProxyChain) : List ProxyNode → List Event × Except Err Conn
  | [] => ([], .error .panicIndexOutOfRange)
  | node :: rest =>
    match (if Http2Enabled c then http2Connect ω c node.Addr else dialTimeout ω node.Addr) with
    | (t1, .error e) => (t1, .error e)
    | (t1, .ok cc) =>
      match handshakeStep ω (.proxy cc node) with
      | (t2, .error e) => (t1 ++ [.setKeepAlive cc] ++ t2, .error e)
      | (t2, .ok _) =>
        match travelLoop ω (.proxy cc node) rest with
        | (t3, r3) => (t1 ++ [.setKeepAlive cc] ++ t2 ++ t3, r3)

/-- The tail of `dialWithNodes` shared by its two call sites: build the chain
over `nodes` and issue the final `Connect(addr)` on its terminal layer,
closing it on failure. -/
def dialTail (ω : Oracle) (c : ProxyChain) (addr : String) (nodes : List ProxyNode) :
    List Event × Except Err Conn :=
  match travelNodes ω c nodes with
  | (t, .error e) => (t, .error e)
  | (t, .ok pc) =>
    match connectStep ω pc addr with
    | (t2, .error e) => (t ++ t2 ++ [.close pc], .error e)
    | (t2, .ok _) => (t ++ t2, .ok pc)

/-- `dialWithNodes`: empty node list → direct raw dial to `addr`; otherwise,
when HTTP2 is enabled, re-slice `nodes[c.http2NodeIndex+1:]` (with Go's bounds
check) and either go through `http2Connect` (slice empty) or build the chain
and `Connect(addr)`. -/
def dialWithNodes (ω : Oracle) (c : ProxyChain) (addr : String)
    (nodes : List ProxyNode) : List Event × Except Err Conn :=
  if nodes.length == 0 then dialTimeout ω addr
  else if Http2Enabled c then
    match goSliceFrom nodes (c.http2NodeIndex + 1) with
    | .error e => ([], .error e)
    | .ok nodes2 =>
      if nodes2.length == 0 then http2Connect ω c addr
      else dialTail ω c addr nodes2
  else dialTail ω c addr nodes

/-- The `DialTLS` closure installed by `initHttp2Client`: dial through the
captured node list with `dialWithNodes` (reading the chain's current state),
then wrap the connection with `tls.Client` under the transport's config. -/
def dialTLS (ω : Oracle) (c : ProxyChain) (nodes : List ProxyNode)
    (addr : String) (cfg : TLSConfig) : List Event × Except Err Conn :=
  match dialWithNodes ω c addr nodes with
  | (t, .error e) => (t, .error e)
  | (t, .ok conn) => (t, .ok (.tlsClient conn cfg))

/-- `Dial(addr)`: default the port to `:80` when none is present, then dial
through the entire node list. -/
def Dial (ω : Oracle) (c : ProxyChain) (addr : String) : List Event × Except Err Conn :=
  let addr := if addr.contains ':' then addr else addr ++ ":80"
  dialWithNodes ω c addr c.nodes

/-- `GetConn()`: empty chain → `ErrEmptyChain`; with HTTP2 enabled, re-slice
past the shortcut index and either return the tunnel stream itself (nothing
after the shortcut node) or travel the remaining nodes. -/
def GetConn (ω : Oracle) (c : ProxyChain) : List Event × Except Err Conn :=
  if c.nodes.length == 0 then ([], .error .emptyChain)
  else if Http2Enabled c then
    match goSliceFrom c.nodes (c.http2NodeIndex + 1) with
    | .error e => ([], .error e)
    | .ok nodes2 =>
      if nodes2.length == 0 then getHttp2Conn ω c
      else travelNodes ω c nodes2
  else travelNodes ω c c.nodes

/-- Events touching the tunnel adapter (the HTTP/2 round trip). -/
def Event.isTunnelEvt : Event → Bool
  | .tunnelReq _ => true
  | .closeBody => true
  | _ => false

/-- Raw-TCP dial events. -/
def Event.isDialTCP : Event → Bool
  | .dialTCP _ => true
  | _ => false

/-- Hop-level steps: a `Connect` or a handshake. -/
def Event.isHopStep : Event → Bool
  | .connectTo _ _ => true
  | .handshake _ => true
  | _ => false

/-- Close events. -/
def Event.isClose : Event → Bool
  | .close _ => true
  | _ => false

/-- Handshake events. -/
def Event.isHandshake : Event → Bool
  | .handshake _ => true
  | _ => false

/-! ### Concrete fixtures used by witnesses and counterexamples -/

/-- A plain TCP node. -/
def nodeA : ProxyNode := ⟨"a:1", "tcp", false, ""⟩

/-- An HTTP2 (shortcut) node. -/
def nodeB : ProxyNode := ⟨"b:2", "http2", true, "srv"⟩

/-- Another plain TCP node. -/
def nodeC : ProxyNode := ⟨"c:3", "tcp", false, ""⟩

/-- A second HTTP2 node, later in scan order than `nodeB`. -/
def nodeD : ProxyNode := ⟨"d:4", "http2", false, ""⟩

/-- An oracle on which every external operation succeeds (responses are 200). -/
def oracleOk : Oracle :=
  ⟨fun _ => true, fun _ => true, fun _ _ => true, fun _ => .ok ⟨200, "200 OK"⟩⟩

/-- An oracle whose dials and connects succeed but every handshake fails. -/
def oracleHsFail : Oracle :=
  ⟨fun _ => true, fun _ => false, fun _ _ => true, fun _ => .ok ⟨200, "200 OK"⟩⟩

/-- An oracle whose HTTP/2 round trip answers 503 Service Unavailable. -/
def oracle503 : Oracle :=
  ⟨fun _ => true, fun _ => true, fun _ _ => true, fun _ => .ok ⟨503, "503 Service Unavailable"⟩⟩

/-- A parser accepting exactly the text "ok" (as `nodeA`) and failing otherwise. -/
def parseOnlyOk : String → Except String ProxyNode :=
  fun s => if s == "ok" then .ok nodeA else .error "boom"

/-- The activated single-node shortcut chain. -/
def chainB : ProxyChain := TryEnableHttp2 (NewProxyChain [nodeB])

/-- The activated chain [A(raw), B(http2), C(raw)]. -/
def chainABC : ProxyChain := TryEnableHttp2 (NewProxyChain [nodeA, nodeB, nodeC])

/-! ### Helper lemmas -/

theorem findHttp2_none {l : List ProxyNode} (h : ∀ n ∈ l, n.Transport ≠ "http2") :
    findHttp2 l = none := by
  induction l with
  | nil => rfl
  | cons a t ih =>
    have ha : (a.Transport == "http2") = false := by
      simpa using h a (by simp)
    simp [findHttp2, ha, ih (fun n hn => h n (by simp [hn]))]

theorem findHttp2_of_first (l : List ProxyNode) (i : Fin l.length)
    (hfirst : ∀ j : Fin l.length, (j : Nat) < (i : Nat) → (l.get j).Transport ≠ "http2")
    (hhit : (l.get i).Transport = "http2") :
    findHttp2 l = some ((i : Nat), l.get i) := by
  induction l with
  | nil => exact absurd i.isLt (by simp)
  | cons a t ih =>
    rcases i with ⟨iv, hlt⟩
    cases iv with
    | zero =>
      simp only [List.get] at hhit
      simp [findHttp2, hhit]
    | succ k =>
      have ha : a.Transport ≠ "http2" := by
        have := hfirst ⟨0, Nat.succ_pos _⟩ (Nat.succ_pos _)
        simpa [List.get] using this
      have ha' : (a.Transport == "http2") = false := by simpa using ha
      have hk : k < t.length := Nat.lt_of_succ_lt_succ hlt
      have ih' := ih ⟨k, hk⟩
        (fun j hj => by
          have := hfirst ⟨(j : Nat) + 1, Nat.succ_lt_succ j.isLt⟩ (Nat.succ_lt_succ hj)
          simpa [List.get] using this)
        (by simpa [List.get] using hhit)
      simp [findHttp2, ha', ih', List.get]

theorem travelLoop_events (ω : Oracle) (conn : Conn) (ns : List ProxyNode) :
    ∀ e ∈ (travelLoop ω conn ns).1, e.isTunnelEvt = false ∧ e.isDialTCP = false := by
  induction ns generalizing conn with
  | nil => simp [travelLoop]
  | cons node rest ih =>
    intro e he
    by_cases hc : ω.connectOk conn node.Addr = true
    · by_cases hh : ω.handshakeOk (.proxy conn node) = true
      · simp only [travelLoop, connectStep, handshakeStep, hc, hh, if_true] at he
        rcases (travelLoop ω (.proxy conn node) rest) with ⟨t3, r3⟩
        simp only [List.mem_append, List.mem_singleton] at he
        rcases he with (rfl | rfl) | he
        · exact ⟨rfl, rfl⟩
        · exact ⟨rfl, rfl⟩
        · exact ih _ e he
      · rw [Bool.not_eq_true] at hh
        simp only [travelLoop, connectStep, handshakeStep, hc, hh, if_true,
          Bool.false_eq_true, if_false] at he
        simp only [List.mem_append, List.mem_singleton] at he
        rcases he with (rfl | rfl) | rfl
        · exact ⟨rfl, rfl⟩
        · exact ⟨rfl, rfl⟩
        · exact ⟨rfl, rfl⟩
    · rw [Bool.not_eq_true] at hc
      simp only [travelLoop, connectStep, hc, Bool.false_eq_true, if_false] at he
      simp only [List.mem_append, List.mem_singleton] at he
      rcases he with rfl | rfl
      · exact ⟨rfl, rfl⟩
      · exact ⟨rfl, rfl⟩

theorem getHttp2Conn_events (ω : Oracle) (c : ProxyChain) :
    ∀ e ∈ (getHttp2Conn ω c).1, e.isTunnelEvt = true := by
  intro e he
  unfold getHttp2Conn at he
  cases hE : Http2Enabled c
  · simp [hE] at he
  · simp only [hE, Bool.not_true, Bool.false_eq_true, if_false] at he
    rcases hgi : goIndex c.nodes c.http2NodeIndex with err | n
    · rw [hgi] at he; simp at he
    · rw [hgi] at he
      dsimp only at he
      rcases hdo : ω.doResult (mkTunnelRequest n.Addr) with m | resp
      · rw [hdo] at he
        simp only [List.mem_singleton] at he
        subst he; rfl
      · rw [hdo] at he
        dsimp only at he
        by_cases hs : (resp.StatusCode != 200) = true
        · simp only [hs, if_true] at he
          simp only [List.mem_cons, List.mem_singleton, List.not_mem_nil, or_false] at he
          rcases he with rfl | rfl <;> rfl
        · rw [Bool.not_eq_true] at hs
          simp only [hs, Bool.false_eq_true, if_false] at he
          simp only [List.mem_singleton] at he
          subst he; rfl

theorem tunnelEvt_classify (e : Event) (h : e.isTunnelEvt = true) :
    e.isDialTCP = false ∧ e.isHopStep = false ∧ e.isClose = false := by
  cases e <;> simp_all [Event.isTunnelEvt, Event.isDialTCP, Event.isHopStep, Event.isClose]

theorem http2Connect_events (ω : Oracle) (c : ProxyChain) (addr : String) :
    ∀ e ∈ (http2Connect ω c addr).1, e.isDialTCP = false := by
  intro e he
  unfold http2Connect at he
  rcases hg : getHttp2Conn ω c with ⟨t, r⟩
  rw [hg] at he
  have ht : ∀ x ∈ t, x.isDialTCP = false := fun x hx =>
    (tunnelEvt_classify x (getHttp2Conn_events ω c x (by rw [hg]; exact hx))).1
  cases r with
  | error err => exact ht e he
  | ok conn =>
    dsimp only at he
    rcases hgi : goIndex c.nodes c.http2NodeIndex with err2 | node
    · rw [hgi] at he
      exact ht e he
    · rw [hgi] at he
      dsimp only at he
      by_cases hc : ω.connectOk (.proxy conn node) addr = true
      · simp only [connectStep, hc, if_true] at he
        simp only [List.mem_append, List.mem_singleton] at he
        rcases he with he | rfl
        · exact ht e he
        · rfl
      · rw [Bool.not_eq_true] at hc
        simp only [connectStep, hc, Bool.false_eq_true, if_false] at he
        simp only [List.append_assoc, List.mem_append, List.mem_singleton] at he
        rcases he with he | rfl | rfl
        · exact ht e he
        · rfl
        · rfl

theorem travelNodes_events_noTunnel (ω : Oracle) (c : ProxyChain) (ns : List ProxyNode)
    (h : c.http2Enabled = false) :
    ∀ e ∈ (travelNodes ω c ns).1, e.isTunnelEvt = false := by
  intro e he
  cases ns with
  | nil => simp [travelNodes] at he
  | cons node rest =>
    have hE : Http2Enabled c = false := h
    simp only [travelNodes, hE, Bool.false_eq_true, if_false, dialTimeout] at he
    by_cases hd : ω.dialOk node.Addr = true
    · simp only [hd, if_true] at he
      by_cases hh : ω.handshakeOk (.proxy (.raw node.Addr) node) = true
      · simp only [handshakeStep, hh, if_true] at he
        rcases hl : travelLoop ω (.proxy (.raw node.Addr) node) rest with ⟨t3, r3⟩
        rw [hl] at he
        simp only [List.append_assoc, List.mem_append, List.mem_singleton,
          List.mem_cons, List.not_mem_nil, or_false] at he
        rcases he with rfl | rfl | rfl | he
        · rfl
        · rfl
        · rfl
        · exact (travelLoop_events ω _ rest e (by rw [hl]; exact he)).1
      · rw [Bool.not_eq_true] at hh
        simp only [handshakeStep, hh, Bool.false_eq_true, if_false] at he
        simp only [List.append_assoc, List.mem_append, List.mem_singleton,
          List.mem_cons, List.not_mem_nil, or_false] at he
        rcases he with rfl | rfl | rfl <;> rfl
    · rw [Bool.not_eq_true] at hd
      simp only [hd, Bool.false_eq_true, if_false] at he
      simp only [List.mem_singleton] at he
      subst he; rfl

theorem travelNodes_events_noDial (ω : Oracle) (c : ProxyChain) (ns : List ProxyNode)
    (h : c.http2Enabled = true) :
    ∀ e ∈ (travelNodes ω c ns).1, e.isDialTCP = false := by
  intro e he
  cases ns with
  | nil => simp [travelNodes] at he
  | cons node rest =>
    have hE : Http2Enabled c = true := h
    simp only [travelNodes, hE, if_true] at he
    rcases hh2 : http2Connect ω c node.Addr with ⟨t1, r1⟩
    rw [hh2] at he
    have ht1 : ∀ x ∈ t1, x.isDialTCP = false := fun x hx =>
      http2Connect_events ω c node.Addr x (by rw [hh2]; exact hx)
    cases r1 with
    | error err => exact ht1 e he
    | ok cc =>
      dsimp only at he
      by_cases hh : ω.handshakeOk (.proxy cc node) = true
      · simp only [handshakeStep, hh, if_true] at he
        rcases hl : travelLoop ω (.proxy cc node) rest with ⟨t3, r3⟩
        rw [hl] at he
        simp only [List.append_assoc, List.mem_append, List.mem_singleton,
          List.mem_cons, List.not_mem_nil, or_false] at he
        rcases he with he | rfl | rfl | he
        · exact ht1 e he
        · rfl
        · rfl
        · exact (travelLoop_events ω _ rest e (by rw [hl]; exact he)).2
      · rw [Bool.not_eq_true] at hh
        simp only [handshakeStep, hh, Bool.false_eq_true, if_false] at he
        simp only [List.append_assoc, List.mem_append, List.mem_singleton,
          List.mem_cons, List.not_mem_nil, or_false] at he
        rcases he with he | rfl | rfl
        · exact ht1 e he
        · rfl
        · rfl

theorem travelNodes_http2_first (ω : Oracle) (c : ProxyChain) (n : ProxyNode)
    (rest : List ProxyNode) (h : c.http2Enabled = true) :
    ∃ t, (travelNodes ω c (n :: rest)).1 = (http2Connect ω c n.Addr).1 ++ t := by
  have hE : Http2Enabled c = true := h
  simp only [travelNodes, hE, if_true]
  rcases hh2 : http2Connect ω c n.Addr with ⟨t1, r1⟩
  cases r1 with
  | error err => exact ⟨[], by simp⟩
  | ok cc =>
    dsimp only
    by_cases hh : ω.handshakeOk (.proxy cc n) = true
    · simp only [handshakeStep, hh, if_true]
      rcases hl : travelLoop ω (.proxy cc n) rest with ⟨t3, r3⟩
      exact ⟨[.setKeepAlive cc] ++ [.handshake (.proxy cc n)] ++ t3, by simp⟩
    · rw [Bool.not_eq_true] at hh
      simp only [handshakeStep, hh, Bool.false_eq_true, if_false]
      exact ⟨[.setKeepAlive cc] ++ [.handshake (.proxy cc n)], by simp⟩

theorem getHttp2Conn_no_hop (ω : Oracle) (c : ProxyChain) :
    (getHttp2Conn ω c).1.filter Event.isHopStep = [] := by
  rw [List.filter_eq_nil_iff]
  intro a ha
  have := tunnelEvt_classify a (getHttp2Conn_events ω c a ha)
  simp [this.2.1]

theorem tryEnable_nodes (c : ProxyChain) : (TryEnableHttp2 c).nodes = c.nodes := by
  unfold TryEnableHttp2
  split
  · rfl
  · dsimp only
    split <;> rfl

theorem tryEnable_empty (c : ProxyChain) (h : c.nodes = []) : TryEnableHttp2 c = c := by
  simp [TryEnableHttp2, h]

theorem length_beq_zero_false {l : List α} (h : l ≠ []) : (l.length == 0) = false := by
  have : l.length ≠ 0 := by simpa [List.length_eq_zero] using h
  simpa using this

theorem tryEnable_none (c : ProxyChain) (hf : findHttp2 c.nodes = none)
    (h0 : c.nodes ≠ []) :
    TryEnableHttp2 c = { c with lastNode := c.nodes.getLast? } := by
  unfold TryEnableHttp2
  simp only [length_beq_zero_false h0, Bool.false_eq_true, if_false]
  rw [hf]

theorem tryEnable_some (c : ProxyChain) {i : Nat} {n : ProxyNode}
    (hf : findHttp2 c.nodes = some (i, n)) (h0 : c.nodes ≠ []) :
    TryEnableHttp2 c
      = { c with lastNode := c.nodes.getLast?,
                 http2NodeIndex := (i : Int),
                 http2Enabled := true,
                 http2Client :=
                   some ⟨n.Addr, ⟨n.insecureSkipVerify, n.serverName⟩, c.nodes.take i⟩ } := by
  unfold TryEnableHttp2
  simp only [length_beq_zero_false h0, Bool.false_eq_true, if_false]
  rw [hf]
  rfl

theorem findHttp2_lt {l : List ProxyNode} {i : Nat} {n : ProxyNode}
    (h : findHttp2 l = some (i, n)) : i < l.length := by
  induction l generalizing i with
  | nil => simp [findHttp2] at h
  | cons a t ih =>
    by_cases ha : (a.Transport == "http2") = true
    · simp only [findHttp2, ha, if_true, Option.some_inj, Prod.mk.injEq] at h
      rcases h with ⟨rfl, rfl⟩
      simp
    · rw [Bool.not_eq_true] at ha
      simp only [findHttp2, ha, Bool.false_eq_true, if_false,
        Option.map_eq_some'] at h
      rcases h with ⟨⟨j, m⟩, hj, hji⟩
      rcases hji with ⟨rfl, rfl⟩
      simpa using Nat.succ_lt_succ (ih hj)

theorem getHttp2Conn_ok_eq (ω : Oracle) (c : ProxyChain) (n : ProxyNode)
    (resp : Http2Response)
    (hen : c.http2Enabled = true)
    (hidx : goIndex c.nodes c.http2NodeIndex = .ok n)
    (hdo : ω.doResult (mkTunnelRequest n.Addr) = .ok resp)
    (h200 : resp.StatusCode = 200) :
    getHttp2Conn ω c = ([.tunnelReq (mkTunnelRequest n.Addr)], .ok .tunnel) := by
  have hE : Http2Enabled c = true := hen
  unfold getHttp2Conn
  simp [hE, hidx, hdo, h200]

theorem getHttp2Conn_err_eq (ω : Oracle) (c : ProxyChain) (n : ProxyNode)
    (resp : Http2Response)
    (hen : c.http2Enabled = true)
    (hidx : goIndex c.nodes c.http2NodeIndex = .ok n)
    (hdo : ω.doResult (mkTunnelRequest n.Addr) = .ok resp)
    (hne : resp.StatusCode ≠ 200) :
    getHttp2Conn ω c
      = ([.tunnelReq (mkTunnelRequest n.Addr), .closeBody],
         .error (.tunnelStatusErr resp.Status)) := by
  have hE : Http2Enabled c = true := hen
  unfold getHttp2Conn
  simp [hE, hidx, hdo, hne]

theorem dialTail_events_noTunnel (ω : Oracle) (c : ProxyChain) (addr : String)
    (ns : List ProxyNode) (h : c.http2Enabled = false) :
    ∀ e ∈ (dialTail ω c addr ns).1, e.isTunnelEvt = false := by
  intro e he
  unfold dialTail at he
  rcases ht : travelNodes ω c ns with ⟨t, r⟩
  rw [ht] at he
  have htt : ∀ x ∈ t, x.isTunnelEvt = false := fun x hx =>
    travelNodes_events_noTunnel ω c ns h x (by rw [ht]; exact hx)
  cases r with
  | error err => exact htt e he
  | ok pc =>
    dsimp only at he
    by_cases hc : ω.connectOk pc addr = true
    · simp only [connectStep, hc, if_true] at he
      simp only [List.mem_append, List.mem_singleton] at he
      rcases he with he | rfl
      · exact htt e he
      · rfl
    · rw [Bool.not_eq_true] at hc
      simp only [connectStep, hc, Bool.false_eq_true, if_false] at he
      simp only [List.append_assoc, List.mem_append, List.mem_singleton] at he
      rcases he with he | rfl | rfl
      · exact htt e he
      · rfl
      · rfl

theorem dialWithNodes_events_noTunnel (ω : Oracle) (c : ProxyChain) (addr : String)
    (ns : List ProxyNode) (h : c.http2Enabled = false) :
    ∀ e ∈ (dialWithNodes ω c addr ns).1, e.isTunnelEvt = false := by
  intro e he
  unfold dialWithNodes at he
  have hE : Http2Enabled c = false := h
  by_cases h0 : (ns.length == 0) = true
  · simp only [h0, if_true, dialTimeout] at he
    simp only [List.mem_singleton] at he
    subst he; rfl
  · rw [Bool.not_eq_true] at h0
    simp only [h0, hE, Bool.false_eq_true, if_false] at he
    exact dialTail_events_noTunnel ω c addr ns h e he

theorem GetConn_disabled_eq (ω : Oracle) (c : ProxyChain)
    (h : c.http2Enabled = false) (h0 : c.nodes ≠ []) :
    GetConn ω c = travelNodes ω c c.nodes := by
  have hE : Http2Enabled c = false := h
  unfold GetConn
  simp only [length_beq_zero_false h0, Bool.false_eq_true, if_false, hE]

/-! ### Claim theorems -/

/-- Claim C9: on a chain whose registry contains zero nodes, `GetConn` returns
the empty-chain error, no connection object, and performs no network
operation (its event trace is empty). -/
theorem C9_getconn_empty (ω : Oracle) (c : ProxyChain) (h : c.nodes = []) :
    GetConn ω c = ([], .error .emptyChain) := by
  simp [GetConn, h]

/-- Witness for C9 at the concrete empty chain. -/
theorem C9_getconn_empty_w :
    GetConn oracleOk (NewProxyChain []) = ([], .error .emptyChain) :=
  C9_getconn_empty oracleOk (NewProxyChain []) rfl

/-- Claim C5: activation leaves the node list unchanged; if position `i` holds
the first node (in scan order) whose transport is `"http2"`, activation records
`i` as the shortcut index and marks the shortcut enabled (scanning stops at the
first match, so later qualifying nodes are ignored); if no node qualifies, the
shortcut state is unchanged (in particular it stays disabled on a fresh chain,
also when the registry is empty). -/
theorem C5_activation (c : ProxyChain) :
    (TryEnableHttp2 c).nodes = c.nodes
    ∧ (∀ i : Fin c.nodes.length,
        (∀ j : Fin c.nodes.length, (j : Nat) < (i : Nat) →
          (c.nodes.get j).Transport ≠ "http2") →
        (c.nodes.get i).Transport = "http2" →
        (TryEnableHttp2 c).http2NodeIndex = ((i : Nat) : Int)
        ∧ (TryEnableHttp2 c).http2Enabled = true)
    ∧ ((∀ n ∈ c.nodes, n.Transport ≠ "http2") →
        (TryEnableHttp2 c).http2NodeIndex = c.http2NodeIndex
        ∧ (TryEnableHttp2 c).http2Enabled = c.http2Enabled) := by
  refine ⟨tryEnable_nodes c, ?_, ?_⟩
  · intro i hfirst hhit
    have h0 : c.nodes ≠ [] :=
      List.ne_nil_of_length_pos (Nat.lt_of_le_of_lt (Nat.zero_le _) i.isLt)
    rw [tryEnable_some c (findHttp2_of_first c.nodes i hfirst hhit) h0]
    exact ⟨rfl, rfl⟩
  · intro hnone
    by_cases h0 : c.nodes = []
    · rw [tryEnable_empty c h0]
      exact ⟨rfl, rfl⟩
    · rw [tryEnable_none c (findHttp2_none hnone) h0]
      exact ⟨rfl, rfl⟩

/-- Witness for C5 on `[A(raw), B(http2), C(raw), D(http2)]`: the index is B's
position 1, the shortcut is enabled, D is ignored. -/
theorem C5_activation_w :
    (TryEnableHttp2 (NewProxyChain [nodeA, nodeB, nodeC, nodeD])).http2NodeIndex = 1
    ∧ (TryEnableHttp2 (NewProxyChain [nodeA, nodeB, nodeC, nodeD])).http2Enabled = true :=
  (C5_activation (NewProxyChain [nodeA, nodeB, nodeC, nodeD])).2.1
    ⟨1, by decide⟩ (by decide) (by decide)

/-- Claim C2, counterexample: on a single raw node whose handshake fails after
a successful dial, `travelNodes` returns the error but its trace contains no
close event at all — the just-opened raw stream is NOT closed, contradicting
the claim that it is closed before the error is returned. -/
theorem C2_cex :
    (travelNodes oracleHsFail (NewProxyChain [nodeA]) [nodeA]).2
      = .error (.handshakeErr (.proxy (.raw "a:1") nodeA))
    ∧ (travelNodes oracleHsFail (NewProxyChain [nodeA]) [nodeA]).1.filter Event.isClose
      = []
    ∧ (travelNodes oracleHsFail (NewProxyChain [nodeA]) [nodeA]).1
      = [.dialTCP "a:1", .setKeepAlive (.raw "a:1"),
         .handshake (.proxy (.raw "a:1") nodeA)] := by
  refine ⟨rfl, rfl, rfl⟩

/-- Claim C2 as amended: in `travelNodes` (shortcut disabled), if the raw dial
to the first node succeeds and that node's handshake fails, the handshake error
is returned and no connection object is returned, but the raw byte stream is
not closed (the cleanup closes only the `conn` variable, which is still nil);
the full trace is dial, keepalive, handshake — with no close event. -/
theorem C2_first_handshake_leak (ω : Oracle) (c : ProxyChain) (node : ProxyNode)
    (rest : List ProxyNode)
    (hen : c.http2Enabled = false)
    (hdial : ω.dialOk node.Addr = true)
    (hhs : ω.handshakeOk (.proxy (.raw node.Addr) node) = false) :
    travelNodes ω c (node :: rest)
      = ([.dialTCP node.Addr, .setKeepAlive (.raw node.Addr),
          .handshake (.proxy (.raw node.Addr) node)],
         .error (.handshakeErr (.proxy (.raw node.Addr) node))) := by
  have hE : Http2Enabled c = false := hen
  simp [travelNodes, hE, dialTimeout, hdial, handshakeStep, hhs]

/-- Witness for the amended C2 at a concrete chain and oracle. -/
theorem C2_first_handshake_leak_w :
    travelNodes oracleHsFail (NewProxyChain [nodeA]) [nodeA]
      = ([.dialTCP nodeA.Addr, .setKeepAlive (.raw nodeA.Addr),
          .handshake (.proxy (.raw nodeA.Addr) nodeA)],
         .error (.handshakeErr (.proxy (.raw nodeA.Addr) nodeA))) :=
  C2_first_handshake_leak oracleHsFail (NewProxyChain [nodeA]) nodeA [] rfl rfl rfl

/-- Claim C3, counterexample: with a parser accepting "ok" and rejecting "bad",
the batch ["ok", "bad"] returns the parser's error verbatim, but the registry
is NOT left as it was — the node parsed from "ok" has already been appended. -/
theorem C3_cex :
    (AddProxyNodeString parseOnlyOk (NewProxyChain []) ["ok", "bad"]).2
      = .error "boom"
    ∧ (AddProxyNodeString parseOnlyOk (NewProxyChain []) ["ok", "bad"]).1.nodes
      = [nodeA]
    ∧ (AddProxyNodeString parseOnlyOk (NewProxyChain []) ["ok", "bad"]).1.nodes
      ≠ (NewProxyChain []).nodes := by
  refine ⟨rfl, rfl, by decide⟩

/-- Claim C3 as amended: the batch is aborted at the first unparsable entry and
the parser's error is returned verbatim, but entries parsed before the failing
one have already been appended to the registry (entries from the failing one
onward are not). -/
theorem C3_batch_aborts (parse : String → Except String ProxyNode) (c : ProxyChain)
    (good : List String) (bad : String) (rest : List String) (e : String)
    (hg : ∀ s ∈ good, (parse s).isOk = true)
    (hb : parse bad = .error e) :
    (AddProxyNodeString parse c (good ++ bad :: rest)).2 = .error e
    ∧ (AddProxyNodeString parse c (good ++ bad :: rest)).1.nodes
      = c.nodes ++ good.filterMap (fun s => (parse s).toOption) := by
  induction good generalizing c with
  | nil =>
    simp [AddProxyNodeString, hb]
  | cons s gs ih =>
    have hs : (parse s).isOk = true := hg s (by simp)
    rcases hps : parse s with err | nd
    · rw [hps] at hs
      simp [Except.isOk, Except.toBool] at hs
    · have h2 := ih (AddProxyNode c [nd]) (fun x hx => hg x (by simp [hx]))
      constructor
      · simpa [AddProxyNodeString, hps] using h2.1
      · simpa [AddProxyNodeString, hps, AddProxyNode, Except.toOption,
          List.filterMap_cons] using h2.2

/-- Witness for the amended C3 at the concrete batch ["ok", "bad"]. -/
theorem C3_batch_aborts_w :
    (AddProxyNodeString parseOnlyOk (NewProxyChain []) (["ok"] ++ "bad" :: [])).2
      = .error "boom"
    ∧ (AddProxyNodeString parseOnlyOk (NewProxyChain []) (["ok"] ++ "bad" :: [])).1.nodes
      = (NewProxyChain []).nodes
          ++ ["ok"].filterMap (fun s => (parseOnlyOk s).toOption) :=
  C3_batch_aborts parseOnlyOk (NewProxyChain []) ["ok"] "bad" [] "boom"
    (by decide) rfl

/-- Claim C4: with the shortcut disabled, `travelNodes [A, B, C]` performs, in
order, the raw dial to A's address, (keepalive,) A's handshake, `Connect` to
B's address on the A-layer, B's handshake on top, `Connect` to C's address on
the B-layer, C's handshake on top, and returns the C-layer.  If B's `Connect`
or B's handshake fails, the layered connection built so far (the A-layer,
which transitively owns the raw stream) is closed, the error is returned with
no connection object, and no step involving C appears in the trace. -/
theorem C4_three_nodes (ω : Oracle) (c : ProxyChain) (A B C : ProxyNode)
    (hen : c.http2Enabled = false)
    (hdA : ω.dialOk A.Addr = true)
    (hhA : ω.handshakeOk (.proxy (.raw A.Addr) A) = true) :
    (ω.connectOk (.proxy (.raw A.Addr) A) B.Addr = true →
      ω.handshakeOk (.proxy (.proxy (.raw A.Addr) A) B) = true →
      ω.connectOk (.proxy (.proxy (.raw A.Addr) A) B) C.Addr = true →
      ω.handshakeOk (.proxy (.proxy (.proxy (.raw A.Addr) A) B) C) = true →
      travelNodes ω c [A, B, C]
        = ([.dialTCP A.Addr, .setKeepAlive (.raw A.Addr),
            .handshake (.proxy (.raw A.Addr) A),
            .connectTo (.proxy (.raw A.Addr) A) B.Addr,
            .handshake (.proxy (.proxy (.raw A.Addr) A) B),
            .connectTo (.proxy (.proxy (.raw A.Addr) A) B) C.Addr,
            .handshake (.proxy (.proxy (.proxy (.raw A.Addr) A) B) C)],
           .ok (.proxy (.proxy (.proxy (.raw A.Addr) A) B) C)))
    ∧ (ω.connectOk (.proxy (.raw A.Addr) A) B.Addr = false →
      travelNodes ω c [A, B, C]
        = ([.dialTCP A.Addr, .setKeepAlive (.raw A.Addr),
            .handshake (.proxy (.raw A.Addr) A),
            .connectTo (.proxy (.raw A.Addr) A) B.Addr,
            .close (.proxy (.raw A.Addr) A)],
           .error (.connectErr (.proxy (.raw A.Addr) A) B.Addr)))
    ∧ (ω.connectOk (.proxy (.raw A.Addr) A) B.Addr = true →
      ω.handshakeOk (.proxy (.proxy (.raw A.Addr) A) B) = false →
      travelNodes ω c [A, B, C]
        = ([.dialTCP A.Addr, .setKeepAlive (.raw A.Addr),
            .handshake (.proxy (.raw A.Addr) A),
            .connectTo (.proxy (.raw A.Addr) A) B.Addr,
            .handshake (.proxy (.proxy (.raw A.Addr) A) B),
            .close (.proxy (.raw A.Addr) A)],
           .error (.handshakeErr (.proxy (.proxy (.raw A.Addr) A) B)))) := by
  have hE : Http2Enabled c = false := hen
  refine ⟨fun h1 h2 h3 h4 => ?_, fun h1 => ?_, fun h1 h2 => ?_⟩ <;>
    simp [travelNodes, travelLoop, hE, dialTimeout, hdA, handshakeStep, hhA,
      connectStep, h1, *]

/-- Witness for C4: the success case on concrete nodes with the all-ok oracle. -/
theorem C4_three_nodes_w :
    travelNodes oracleOk (NewProxyChain []) [nodeA, nodeB, nodeC]
      = ([.dialTCP nodeA.Addr, .setKeepAlive (.raw nodeA.Addr),
          .handshake (.proxy (.raw nodeA.Addr) nodeA),
          .connectTo (.proxy (.raw nodeA.Addr) nodeA) nodeB.Addr,
          .handshake (.proxy (.proxy (.raw nodeA.Addr) nodeA) nodeB),
          .connectTo (.proxy (.proxy (.raw nodeA.Addr) nodeA) nodeB) nodeC.Addr,
          .handshake (.proxy (.proxy (.proxy (.raw nodeA.Addr) nodeA) nodeB) nodeC)],
         .ok (.proxy (.proxy (.proxy (.raw nodeA.Addr) nodeA) nodeB) nodeC)) :=
  (C4_three_nodes oracleOk (NewProxyChain []) nodeA nodeB nodeC rfl rfl rfl).1
    rfl rfl rfl rfl

/-- Claim C6: the tunnel-switch request has method CONNECT, the https scheme,
protocol version 2 (both as `Proto` string and major number), host/authority
equal to the shortcut node's address, and the `Proxy-Switch: gost` header;
given a response, the exchange succeeds iff its status code is 200, and a
non-200 response yields the error built from the response's status line, with
the body closed (the `closeBody` event) before returning. -/
theorem C6_tunnel_request (ω : Oracle) (c : ProxyChain) (n : ProxyNode)
    (resp : Http2Response)
    (hen : c.http2Enabled = true)
    (hidx : goIndex c.nodes c.http2NodeIndex = .ok n)
    (hdo : ω.doResult (mkTunnelRequest n.Addr) = .ok resp) :
    ((mkTunnelRequest n.Addr).Method = "CONNECT"
      ∧ (mkTunnelRequest n.Addr).URLScheme = "https"
      ∧ (mkTunnelRequest n.Addr).Proto = "HTTP/2.0"
      ∧ (mkTunnelRequest n.Addr).ProtoMajor = 2
      ∧ (mkTunnelRequest n.Addr).URLHost = n.Addr
      ∧ (mkTunnelRequest n.Addr).Host = n.Addr
      ∧ (mkTunnelRequest n.Addr).headerProxySwitch = some "gost")
    ∧ (resp.StatusCode = 200 →
        getHttp2Conn ω c = ([.tunnelReq (mkTunnelRequest n.Addr)], .ok .tunnel))
    ∧ (resp.StatusCode ≠ 200 →
        getHttp2Conn ω c
          = ([.tunnelReq (mkTunnelRequest n.Addr), .closeBody],
             .error (.tunnelStatusErr resp.Status))) :=
  ⟨⟨rfl, rfl, rfl, rfl, rfl, rfl, rfl⟩,
   fun h200 => getHttp2Conn_ok_eq ω c n resp hen hidx hdo h200,
   fun hne => getHttp2Conn_err_eq ω c n resp hen hidx hdo hne⟩

/-- Witness for C6: the 503 response on a concrete activated chain yields the
failure carrying the status line, after the body-close event. -/
theorem C6_tunnel_request_w :
    getHttp2Conn oracle503 chainB
      = ([.tunnelReq (mkTunnelRequest nodeB.Addr), .closeBody],
         .error (.tunnelStatusErr "503 Service Unavailable")) :=
  (C6_tunnel_request oracle503 chainB nodeB ⟨503, "503 Service Unavailable"⟩
      rfl rfl rfl).2.2 (by decide)

/-- Claim C7, counterexample: on a concrete activated chain with the all-ok
oracle, a successful `http2Connect` performs the tunnel request and exactly one
`Connect` step but NO handshake step at all — its trace contains no handshake
event, contradicting the claim that exactly one handshake step is performed. -/
theorem C7_cex :
    (http2Connect oracleOk chainB "t:9").1
      = [.tunnelReq (mkTunnelRequest "b:2"),
         .connectTo (.proxy .tunnel nodeB) "t:9"]
    ∧ (http2Connect oracleOk chainB "t:9").1.filter Event.isHandshake = []
    ∧ (http2Connect oracleOk chainB "t:9").2 = .ok .tunnel := by
  refine ⟨rfl, rfl, rfl⟩

/-- Claim C7 as amended: `http2Connect(addr)` opens the tunnel stream and
performs exactly one `Connect(addr)` step for the shortcut node on top of it —
and no handshake step; on `Connect` failure the `ProxyConn` wrapper (and with
it, transitively, the tunnel stream) is closed before the error is returned
and no connection is returned; on success the tunnel stream is returned. -/
theorem C7_http2Connect (ω : Oracle) (c : ProxyChain) (n : ProxyNode)
    (resp : Http2Response) (addr : String)
    (hen : c.http2Enabled = true)
    (hidx : goIndex c.nodes c.http2NodeIndex = .ok n)
    (hdo : ω.doResult (mkTunnelRequest n.Addr) = .ok resp)
    (h200 : resp.StatusCode = 200) :
    (ω.connectOk (.proxy .tunnel n) addr = true →
      http2Connect ω c addr
        = ([.tunnelReq (mkTunnelRequest n.Addr),
            .connectTo (.proxy .tunnel n) addr],
           .ok .tunnel))
    ∧ (ω.connectOk (.proxy .tunnel n) addr = false →
      http2Connect ω c addr
        = ([.tunnelReq (mkTunnelRequest n.Addr),
            .connectTo (.proxy .tunnel n) addr,
            .close (.proxy .tunnel n)],
           .error (.connectErr (.proxy .tunnel n) addr))) := by
  have hget := getHttp2Conn_ok_eq ω c n resp hen hidx hdo h200
  constructor
  · intro hc
    unfold http2Connect
    rw [hget]
    simp [hidx, connectStep, hc]
  · intro hc
    unfold http2Connect
    rw [hget]
    simp [hidx, connectStep, hc]

/-- Witness for the amended C7: the success case on a concrete activated
chain. -/
theorem C7_http2Connect_w :
    http2Connect oracleOk chainB "t:9"
      = ([.tunnelReq (mkTunnelRequest nodeB.Addr),
          .connectTo (.proxy .tunnel nodeB) "t:9"],
         .ok .tunnel) :=
  (C7_http2Connect oracleOk chainB nodeB ⟨200, "200 OK"⟩ "t:9"
      rfl rfl rfl rfl).1 rfl

/-- Claim C8: with the shortcut enabled at a valid index `i`, if the shortcut
node is the last node then `GetConn` returns the tunnel stream directly
(`getHttp2Conn`, whose trace has no hop-connect and no handshake step);
otherwise `GetConn` builds a chain over exactly the nodes after index `i`, and
that build obtains the first of those nodes' underlying stream via the
shortcut (`http2Connect` to that node's address opens the trace) rather than a
raw TCP dial (no raw-dial event occurs at all). -/
theorem C8_getconn (ω : Oracle) (c : ProxyChain) (i : Nat)
    (hen : c.http2Enabled = true)
    (hidx : c.http2NodeIndex = (i : Int))
    (hlt : i < c.nodes.length) :
    (i + 1 = c.nodes.length →
      GetConn ω c = getHttp2Conn ω c
      ∧ (getHttp2Conn ω c).1.filter Event.isHopStep = [])
    ∧ (i + 1 < c.nodes.length →
      GetConn ω c = travelNodes ω c (c.nodes.drop (i + 1))
      ∧ ∀ n rest, c.nodes.drop (i + 1) = n :: rest →
          (∃ t, (travelNodes ω c (n :: rest)).1 = (http2Connect ω c n.Addr).1 ++ t)
          ∧ ∀ e ∈ (travelNodes ω c (n :: rest)).1, e.isDialTCP = false) := by
  have hE : Http2Enabled c = true := hen
  have h0 : c.nodes ≠ [] :=
    List.ne_nil_of_length_pos (Nat.lt_of_le_of_lt (Nat.zero_le _) hlt)
  have hslice : goSliceFrom c.nodes (c.http2NodeIndex + 1)
      = .ok (c.nodes.drop (i + 1)) := by
    have hcast : (c.http2NodeIndex + 1) = ((i + 1 : Nat) : Int) := by
      rw [hidx]; push_cast; ring
    rw [hcast]
    unfold goSliceFrom
    have hcond : 0 ≤ ((i + 1 : Nat) : Int)
        ∧ ((i + 1 : Nat) : Int) ≤ (c.nodes.length : Int) :=
      ⟨Int.natCast_nonneg _, by exact_mod_cast hlt⟩
    rw [if_pos hcond]
    simp
  constructor
  · intro hEq
    have hdropnil : c.nodes.drop (i + 1) = [] := by
      rw [hEq]; exact List.drop_length _
    refine ⟨?_, getHttp2Conn_no_hop ω c⟩
    unfold GetConn
    simp only [length_beq_zero_false h0, Bool.false_eq_true, if_false, hE, if_true]
    rw [hslice]
    simp [hdropnil]
  · intro hLt
    have hdropne : ((c.nodes.drop (i + 1)).length == 0) = false := by
      have hne : (c.nodes.drop (i + 1)).length ≠ 0 := by
        rw [List.length_drop]; omega
      simpa using hne
    constructor
    · unfold GetConn
      simp only [length_beq_zero_false h0, Bool.false_eq_true, if_false, hE, if_true]
      rw [hslice]
      simp only [hdropne, Bool.false_eq_true, if_false]
    · intro n rest hnr
      exact ⟨travelNodes_http2_first ω c n rest hen,
             travelNodes_events_noDial ω c (n :: rest) hen⟩

/-- Witness for C8: on the activated chain [A, B(http2), C] (index 1, not
last), `GetConn` builds over exactly the nodes after index 1. -/
theorem C8_getconn_w :
    GetConn oracleOk chainABC
      = travelNodes oracleOk chainABC (chainABC.nodes.drop (1 + 1)) :=
  ((C8_getconn oracleOk chainABC 1 rfl rfl (by decide)).2 (by decide)).1

/-- Claim C1 (code bug): after activation with the shortcut node at index
`i ≥ 1`, the recorded client captures the prefix `nodes[:i]` (length `i`),
but invoking the custom secure-dial function re-enters `dialWithNodes` with
the shortcut still enabled, which re-slices the captured prefix at
`http2NodeIndex + 1 = i + 1 > i` — an out-of-range slice: the call ends in
the run-time panic instead of dialing through the prefix. -/
theorem C1_dialTLS_panics (ω : Oracle) (cfg : TLSConfig) (addr : String)
    (ns : List ProxyNode) (i : Nat) (n : ProxyNode)
    (hf : findHttp2 ns = some (i, n)) (h1 : 1 ≤ i) :
    (TryEnableHttp2 (NewProxyChain ns)).http2Client
      = some ⟨n.Addr, ⟨n.insecureSkipVerify, n.serverName⟩, ns.take i⟩
    ∧ dialTLS ω (TryEnableHttp2 (NewProxyChain ns)) (ns.take i) addr cfg
      = ([], .error .panicSliceOutOfRange) := by
  have hlt : i < ns.length := findHttp2_lt hf
  have hne : (NewProxyChain ns).nodes ≠ [] :=
    List.ne_nil_of_length_pos (Nat.lt_of_le_of_lt (Nat.zero_le _) hlt)
  have hact := tryEnable_some (NewProxyChain ns) hf hne
  have htake : (ns.take i).length = i := by
    rw [List.length_take]; omega
  have hidx2 : (TryEnableHttp2 (NewProxyChain ns)).http2NodeIndex = (i : Int) := by
    rw [hact]
  have hen2 : Http2Enabled (TryEnableHttp2 (NewProxyChain ns)) = true := by
    rw [Http2Enabled, hact]
  constructor
  · rw [hact]
    rfl
  · have h0 : ((ns.take i).length == 0) = false := by
      have hne0 : (ns.take i).length ≠ 0 := by omega
      simpa using hne0
    have hsl : goSliceFrom (ns.take i)
        ((TryEnableHttp2 (NewProxyChain ns)).http2NodeIndex + 1)
        = .error .panicSliceOutOfRange := by
      rw [hidx2]
      unfold goSliceFrom
      rw [if_neg]
      intro hcond
      rcases hcond with ⟨-, h2⟩
      rw [htake] at h2
      omega
    unfold dialTLS dialWithNodes
    simp only [h0, Bool.false_eq_true, if_false, hen2, if_true]
    rw [hsl]

/-- Witness for C1 at the concrete chain [A(raw), B(http2)]: the captured
prefix is [A] and the dial function's invocation ends in the slice panic. -/
theorem C1_dialTLS_panics_w :
    (TryEnableHttp2 (NewProxyChain [nodeA, nodeB])).http2Client
      = some ⟨nodeB.Addr, ⟨nodeB.insecureSkipVerify, nodeB.serverName⟩,
              [nodeA, nodeB].take 1⟩
    ∧ dialTLS oracleOk (TryEnableHttp2 (NewProxyChain [nodeA, nodeB]))
        ([nodeA, nodeB].take 1) "x:9" ⟨true, "srv"⟩
      = ([], .error .panicSliceOutOfRange) :=
  C1_dialTLS_panics oracleOk ⟨true, "srv"⟩ "x:9" [nodeA, nodeB] 1 nodeB rfl
    (by decide)

/-- Claim C10: a fresh chain has the shortcut disabled (index -1, no client);
appending nodes never touches the shortcut state; activating on an empty
registry changes nothing; and on any chain with the shortcut disabled, `Dial`
goes through `dialWithNodes` over the full node list and `GetConn` through
`travelNodes` over the full node list, with no tunnel-adapter event in either
trace — even when some node's transport kind is the shortcut marker. -/
theorem C10_no_activation (ω : Oracle) (ns : List ProxyNode) (c : ProxyChain)
    (h : c.http2Enabled = false) :
    ((NewProxyChain ns).http2Enabled = false
      ∧ (NewProxyChain ns).http2NodeIndex = -1
      ∧ (NewProxyChain ns).http2Client = none)
    ∧ ((AddProxyNode c ns).http2Enabled = c.http2Enabled
      ∧ (AddProxyNode c ns).http2NodeIndex = c.http2NodeIndex
      ∧ (AddProxyNode c ns).http2Client = c.http2Client)
    ∧ (c.nodes = [] → TryEnableHttp2 c = c)
    ∧ (∀ a, Dial ω c a
        = dialWithNodes ω c (if a.contains ':' then a else a ++ ":80") c.nodes)
    ∧ (∀ a, ∀ e ∈ (Dial ω c a).1, e.isTunnelEvt = false)
    ∧ (c.nodes ≠ [] → GetConn ω c = travelNodes ω c c.nodes)
    ∧ (∀ e ∈ (GetConn ω c).1, e.isTunnelEvt = false) := by
  refine ⟨⟨rfl, rfl, rfl⟩, ⟨rfl, rfl, rfl⟩, tryEnable_empty c, fun a => rfl,
    ?_, GetConn_disabled_eq ω c h, ?_⟩
  · intro a e he
    exact dialWithNodes_events_noTunnel ω c
      (if a.contains ':' then a else a ++ ":80") c.nodes h e he
  · intro e he
    by_cases h0 : c.nodes = []
    · simp [GetConn, h0] at he
    · rw [GetConn_disabled_eq ω c h h0] at he
      exact travelNodes_events_noTunnel ω c c.nodes h e he

/-- Witness for C10 on the never-activated chain [A, B(http2), C]: `GetConn`
goes through `travelNodes` over the full list and no tunnel event occurs. -/
theorem C10_no_activation_w :
    GetConn oracleOk (NewProxyChain [nodeA, nodeB, nodeC])
      = travelNodes oracleOk (NewProxyChain [nodeA, nodeB, nodeC])
          (NewProxyChain [nodeA, nodeB, nodeC]).nodes
    ∧ ∀ e ∈ (GetConn oracleOk (NewProxyChain [nodeA, nodeB, nodeC])).1,
        e.isTunnelEvt = false :=
  ⟨(C10_no_activation oracleOk [] (NewProxyChain [nodeA, nodeB, nodeC])
      rfl).2.2.2.2.2.1 (by decide),
   (C10_no_activation oracleOk [] (NewProxyChain [nodeA, nodeB, nodeC])
      rfl).2.2.2.2.2.2⟩
